import Mathlib

/-!
Verification of the SHEILD spatial safety-scoring engine.

This file gives a shallow embedding, over the rationals, of the scoring,
grid-lookup, route-scoring, ranking and route-fetching logic of
`src/database/h3_processing.py`, `src/Map_backend/database/h3_processing.py`,
`src/map/route_processer.py` and `src/Map_backend/map/route_processer.py`,
and proves or refutes the stated properties of that logic.

Modelling conventions:
* Python floats are modelled as `ℚ` (the arithmetic in scope is exact
  decimal arithmetic: sums, divisions by 10 and by list lengths, min/max).
* Python dicts are modelled as association lists with `alookup` (first
  binding wins, mirroring unique-key dicts); `k in d` is `alookup k d ≠ none`.
* The external H3 library function `h3.latlng_to_cell(lat, lon, res)` is an
  opaque deterministic function; it is passed around as a parameter
  `cellOf : ℚ → ℚ → CellKey` (one fixed resolution per processor instance).
  Likewise `h3.cell_to_latlng` is a parameter `cellToLatLon`.
* The per-cell record stored in `h3_safety_scores[bucket]` carries several
  bookkeeping fields, but every lookup in scope reads only the
  `safety_score` field; the serving-grid value type is therefore that score.
-/

/-- H3 cell identifiers (`h3.api.basic_str` returns strings). -/
abbrev CellKey := String

/-- Association-list lookup, modelling Python dict membership/indexing. -/
def alookup {κ β : Type} [DecidableEq κ] (k : κ) : List (κ × β) → Option β
  | [] => none
  | (k₀, v) :: rest => if k₀ = k then some v else alookup k rest

/-- The serving grid: bucket name → (cell key → stored safety score),
modelling `H3SafetyProcessor.h3_safety_scores`. -/
abbrev H3ScoresDict := List (String × List (CellKey × ℚ))

/-- The `default_scores` table of `get_safety_score_for_location`. -/
def default_scores : List (String × ℚ) := [("day", 75), ("night", 60), ("overall", 67.5)]

/-- The body of `H3SafetyProcessor.get_safety_score_for_location` after the
point has been converted to its cell key: if the bucket is a key of the
scores dict and the cell is a key of that bucket's dict, return the stored
score, else `default_scores.get(time_period, 67.5)`. -/
def cellScore (scores : H3ScoresDict) (time_period : String) (k : CellKey) : ℚ :=
  match alookup time_period scores with
  | some m =>
    match alookup k m with
    | some s => s
    | none => (alookup time_period default_scores).getD 67.5
  | none => (alookup time_period default_scores).getD 67.5

/-- `H3SafetyProcessor.get_safety_score_for_location(lat, lon, time_period)`:
convert the point to its H3 index, then look it up under the bucket. -/
def get_safety_score_for_location (scores : H3ScoresDict) (cellOf : ℚ → ℚ → CellKey)
    (lat lon : ℚ) (time_period : String) : ℚ :=
  cellScore scores time_period (cellOf lat lon)

/-- `SafetyScoreCalculator.calculate_safety_score` (identical inline in
`H3SafetyProcessor.calculate_h3_safety_scores`, lines 84-96 of
`src/database/h3_processing.py`). -/
def calculate_safety_score (incident_count avg_severity max_severity : ℚ) : ℚ :=
  let incident_weight := min (incident_count / 10) 1
  let severity_weight := avg_severity / 10
  let max_severity_penalty := max_severity / 10
  let raw_score := 100 -
    (incident_weight * 40 + severity_weight * 35 + max_severity_penalty * 25)
  max 0 (min 100 raw_score)

/-- The spec's `clamp(x, lo, hi)`. -/
def clamp (x lo hi : ℚ) : ℚ := max lo (min hi x)

/-- Per-bucket per-cell record built by `calculate_period_scores` /
the day-night loop of `calculate_h3_safety_scores`. -/
structure PeriodScore where
  safety_score : ℚ
  incident_count : ℕ
  avg_severity : ℚ
  max_severity : ℚ
  lat : ℚ
  lon : ℚ
deriving DecidableEq

/-- Per-cell record of the `overall` bucket. -/
structure OverallScore where
  safety_score : ℚ
  day_score : ℚ
  night_score : ℚ
  lat : ℚ
  lon : ℚ
deriving DecidableEq

abbrev PeriodMap := List (CellKey × PeriodScore)

/-- Deduplication keeping first occurrences, avoiding an initial seen set. -/
def dedupAvoid (seen : List CellKey) : List CellKey → List CellKey
  | [] => []
  | k :: ks => if k ∈ seen then dedupAvoid seen ks else k :: dedupAvoid (seen ++ [k]) ks

/-- First-occurrence deduplication of a list of cell keys. -/
def dedupFirst (l : List CellKey) : List CellKey := dedupAvoid [] l

/-- `set(h3_scores['day'].keys()) | set(h3_scores['night'].keys())`: the cell
keys materialized in the overall map (one entry per distinct key). -/
def allH3Indices (day night : PeriodMap) : List CellKey :=
  dedupFirst (day.map Prod.fst ++ night.map Prod.fst)

/-- The body of the overall-score loop of `calculate_h3_safety_scores`
(lines 110-126 of `src/database/h3_processing.py`) for one cell key:
day score defaulting to 75, night score defaulting to 60, their plain mean,
and coordinates taken from the day record, else the night record, else
`h3_to_latlon` (the Python truthiness test `not coords.get('lat')` also
falls back on a coordinate equal to 0). -/
def overallEntry (cellToLatLon : CellKey → ℚ × ℚ) (day night : PeriodMap)
    (k : CellKey) : OverallScore :=
  let day_score := ((alookup k day).map PeriodScore.safety_score).getD 75
  let night_score := ((alookup k night).map PeriodScore.safety_score).getD 60
  let coords : ℚ × ℚ :=
    match alookup k day with
    | some c => if c.lat = 0 ∨ c.lon = 0 then cellToLatLon k else (c.lat, c.lon)
    | none =>
      match alookup k night with
      | some c => if c.lat = 0 ∨ c.lon = 0 then cellToLatLon k else (c.lat, c.lon)
      | none => cellToLatLon k
  ⟨(day_score + night_score) / 2, day_score, night_score, coords.1, coords.2⟩

/-- The overall-score loop of `calculate_h3_safety_scores`: one entry per
cell key appearing in the day or night buckets. -/
def calculate_overall_scores (cellToLatLon : CellKey → ℚ × ℚ)
    (day night : PeriodMap) : List (CellKey × OverallScore) :=
  (allH3Indices day night).map (fun k => (k, overallEntry cellToLatLon day night k))

/-- The five statistics returned by `calculate_route_safety`
(dict keys `overall_safety`, `min_safety`, `max_safety`, `safety_variance`,
`h3_count`). -/
structure SafetyBreakdown where
  overall_safety : ℚ
  min_safety : ℚ
  max_safety : ℚ
  safety_variance : ℚ
  h3_count : ℕ
deriving DecidableEq

/-- `np.mean` of a nonempty list. -/
def listMean (xs : List ℚ) : ℚ := xs.sum / (xs.length : ℚ)

/-- `np.min` of a nonempty list (the empty case is unreachable: the caller
guards on `if not safety_scores`; 0 is a junk value). -/
def listMin : List ℚ → ℚ
  | [] => 0
  | x :: xs => xs.foldl min x

/-- `np.max` of a nonempty list (empty case unreachable, junk value 0). -/
def listMax : List ℚ → ℚ
  | [] => 0
  | x :: xs => xs.foldl max x

/-- `np.var` of a nonempty list: the mean of squared deviations from the
mean (population variance, dividing by n). -/
def listVar (xs : List ℚ) : ℚ :=
  (xs.map (fun v => (v - listMean xs) ^ 2)).sum / (xs.length : ℚ)

/-- The per-point loop of `calculate_route_safety` (lines 127-133 of
`src/map/route_processer.py`): for each coordinate in order, compute its
H3 index; if not yet seen on this route, append it and append the looked-up
safety score for the point. -/
def collectRoute (scores : H3ScoresDict) (cellOf : ℚ → ℚ → CellKey) (time_period : String) :
    List (ℚ × ℚ) → List CellKey → List ℚ → List CellKey × List ℚ
  | [], h3_indices, safety_scores => (h3_indices, safety_scores)
  | p :: rest, h3_indices, safety_scores =>
    if cellOf p.1 p.2 ∈ h3_indices then
      collectRoute scores cellOf time_period rest h3_indices safety_scores
    else
      collectRoute scores cellOf time_period rest (h3_indices ++ [cellOf p.1 p.2])
        (safety_scores ++ [get_safety_score_for_location scores cellOf p.1 p.2 time_period])

/-- `RouteProcessor.calculate_route_safety` / `SafetyCalculator.calculate_route_safety`:
collect the deduplicated cells and their scores; on zero scores return the
neutral breakdown, otherwise the numpy statistics. -/
def calculate_route_safety (scores : H3ScoresDict) (cellOf : ℚ → ℚ → CellKey)
    (route_coords : List (ℚ × ℚ)) (time_period : String) : SafetyBreakdown :=
  let res := collectRoute scores cellOf time_period route_coords [] []
  if res.2 = [] then ⟨67.5, 67.5, 67.5, 0, 0⟩
  else ⟨listMean res.2, listMin res.2, listMax res.2, listVar res.2, res.1.length⟩

/-- The `SafetyRoute` dataclass; equality is field-wise, as for a Python
dataclass (the `route_type` field of the Map_backend variant is omitted). -/
structure SafetyRoute where
  coordinates : List (ℚ × ℚ)
  safety_score : ℚ
  distance_km : ℚ
  duration_minutes : ℚ
  h3_indices : List CellKey
  safety_breakdown : SafetyBreakdown
deriving DecidableEq

/-- Python's `max(best :: rest, key=key)`: scans left to right and replaces
the current best only on a strictly larger key, so ties keep the first
occurrence. -/
def pyMaxBy {α : Type} (key : α → ℚ) (best : α) : List α → α
  | [] => best
  | x :: xs => pyMaxBy key (if key best < key x then x else best) xs

/-- Python's `min(best :: rest, key=key)`: replaces the current best only on
a strictly smaller key, so ties keep the first occurrence. -/
def pyMinBy {α : Type} (key : α → ℚ) (best : α) : List α → α
  | [] => best
  | x :: xs => pyMinBy key (if key x < key best then x else best) xs

/-- Python's `list.index(x)`: position of the first element equal to `x`
(the not-found case returns the length; `list.index` would raise there,
but every call in scope passes a member). -/
def pyIndex {α : Type} [DecidableEq α] (x : α) : List α → ℕ
  | [] => 0
  | y :: ys => if y = x then 0 else pyIndex x ys + 1

/-- The dict returned by `_get_route_recommendation`: either
`{"message": ...}` for an empty list or `{"recommended_route": i, "reason": r}`. -/
inductive RouteRecommendation where
  | noRoutes (message : String)
  | recommended (recommended_route : ℕ) (reason : String)
deriving DecidableEq

/-- `RouteProcessor._get_route_recommendation` /
`RouteFormatter.get_route_recommendation` (lines 252-274 of
`src/map/route_processer.py`). -/
def get_route_recommendation (routes : List SafetyRoute) : RouteRecommendation :=
  match routes with
  | [] => .noRoutes "No routes available"
  | r :: rs =>
    let best_safety := pyMaxBy SafetyRoute.safety_score r rs
    let shortest := pyMinBy SafetyRoute.distance_km r rs
    if best_safety = shortest then
      .recommended 0 "Best combination of safety and efficiency"
    else if best_safety.safety_score - shortest.safety_score > 15 then
      .recommended (pyIndex best_safety (r :: rs)) "Prioritizing safety over shorter distance"
    else
      .recommended (pyIndex shortest (r :: rs)) "Good balance of safety and efficiency"

/-- The `RoutePoint` dataclass. -/
structure RoutePoint where
  lat : ℚ
  lon : ℚ
deriving DecidableEq

/-- One entry of a raw route's `properties.segments` list. -/
structure RawSegment where
  distance : ℚ
  duration : ℚ
deriving DecidableEq

/-- A raw candidate route as returned by the geometry collaborator or the
mock generator: `geometry.coordinates` ([lon, lat] pairs) and
`properties.segments`. -/
structure RawRoute where
  coordinates : List (ℚ × ℚ)
  segments : List RawSegment
deriving DecidableEq

/-- `RouteProcessor._generate_mock_routes` (`src/map/route_processer.py`
lines 76-114): a direct two-point route plus `alternatives` offset
three-point routes. The geodesic distance computation (geopy) is external
and passed in as `dist` (kilometres). -/
def generate_mock_routes (dist : RoutePoint → RoutePoint → ℚ)
    (start stop : RoutePoint) (alternatives : ℕ) : List RawRoute :=
  let direct : RawRoute :=
    ⟨[(start.lon, start.lat), (stop.lon, stop.lat)],
      [⟨dist start stop * 1000, dist start stop * 60⟩]⟩
  let alts := (List.range alternatives).map (fun (i : ℕ) =>
    let offset : ℚ := 1 / 100 * ((i : ℚ) + 1)
    let mid_lat := (start.lat + stop.lat) / 2 + offset
    let mid_lon := (start.lon + stop.lon) / 2 + offset
    (⟨[(start.lon, start.lat), (mid_lon, mid_lat), (stop.lon, stop.lat)],
      [⟨dist start stop * 1200, dist start stop * 70⟩]⟩ : RawRoute))
  direct :: alts

/-- Outcome of the HTTP call to the OpenRouteService directions endpoint:
a parsed feature list, or any raised exception / bad status. -/
inductive OrsOutcome where
  | success (features : List RawRoute)
  | failure
deriving DecidableEq

/-- `RouteProcessor.get_routes_from_ors` (`src/map/route_processer.py`
lines 45-74): with no API key, or on any request error, fall back to the
mock routes; otherwise return the response's features. -/
def get_routes_from_ors (dist : RoutePoint → RoutePoint → ℚ) (api_key : Option String)
    (start stop : RoutePoint) (alternatives : ℕ) (outcome : OrsOutcome) : List RawRoute :=
  match api_key with
  | none => generate_mock_routes dist start stop alternatives
  | some _ =>
    match outcome with
    | .success features => features
    | .failure => generate_mock_routes dist start stop alternatives

/-- `RouteAPIClient.get_ors_routes` of `src/Map_backend/map/route_processer.py`:
with no API key return `[]`; otherwise return the cached fetch, which itself
returns `[]` on any exception or on a response without routes (`response`
is `none` in those cases). -/
def get_ors_routes (api_key : Option String) (response : Option (List RawRoute)) :
    List RawRoute :=
  match api_key with
  | none => []
  | some _ => response.getD []

/-- A concrete scored route with safety 50 and distance 10 km. -/
def exampleRouteA : SafetyRoute := ⟨[], 50, 10, 0, [], ⟨0, 0, 0, 0, 0⟩⟩

/-- A concrete scored route with safety 90 and distance 5 km: simultaneously
the safest and the shortest of `[exampleRouteA, exampleRouteB]`. -/
def exampleRouteB : SafetyRoute := ⟨[], 90, 5, 0, [], ⟨0, 0, 0, 0, 0⟩⟩

/-- The deduplicated ordered list of cells visited by a route
(spec-side description of the route loop's first accumulator). -/
def visitedCells (cellOf : ℚ → ℚ → CellKey) (route : List (ℚ × ℚ)) : List CellKey :=
  dedupFirst (route.map fun p => cellOf p.1 p.2)

/-- The per-cell scores of the deduplicated visited cells, in
first-occurrence order (spec-side description of the second accumulator). -/
def visitedScores (scores : H3ScoresDict) (cellOf : ℚ → ℚ → CellKey)
    (time_period : String) (route : List (ℚ × ℚ)) : List ℚ :=
  (visitedCells cellOf route).map (cellScore scores time_period)

/-- Claim C1: for every non-negative incident_count, avg_severity and
max_severity, the per-bucket safety score equals
clamp(100 − (min(count/10, 1)·40 + (avg/10)·35 + (max/10)·25), 0, 100),
and in particular lies in [0, 100]. -/
theorem claim_C1_score_formula (incident_count avg_severity max_severity : ℚ)
    (hc : 0 ≤ incident_count) (ha : 0 ≤ avg_severity) (hm : 0 ≤ max_severity) :
    calculate_safety_score incident_count avg_severity max_severity =
      clamp (100 - (min (incident_count / 10) 1 * 40 +
        avg_severity / 10 * 35 + max_severity / 10 * 25)) 0 100 ∧
    0 ≤ calculate_safety_score incident_count avg_severity max_severity ∧
    calculate_safety_score incident_count avg_severity max_severity ≤ 100 := by
  refine ⟨rfl, le_max_left _ _, ?_⟩
  exact max_le (by norm_num) (min_le_left _ _)

/-- Witness for C1: at count 3, average severity 5, maximum severity 7 the
score is 100 − (12 + 17.5 + 17.5) = 53, inside [0, 100]. -/
theorem claim_C1_score_formula_witness : calculate_safety_score 3 5 7 = 53 := by
  have h := claim_C1_score_formula 3 5 7 (by norm_num) (by norm_num) (by norm_num)
  rw [h.1]
  norm_num [clamp]

/-- Association-list lookup misses exactly the keys not in the list. -/
theorem alookup_eq_none_iff {κ β : Type} [DecidableEq κ] (k : κ) (l : List (κ × β)) :
    alookup k l = none ↔ k ∉ l.map Prod.fst := by
  induction l with
  | nil => simp [alookup]
  | cons p rest ih =>
    obtain ⟨k₀, v⟩ := p
    by_cases h : k₀ = k
    · subst h
      simp [alookup]
    · simp [alookup, h, ih, Ne.symm h]

/-- A successful association-list lookup implies key membership. -/
theorem alookup_mem_of_some {κ β : Type} [DecidableEq κ] {k : κ} {l : List (κ × β)}
    {v : β} (h : alookup k l = some v) : k ∈ l.map Prod.fst := by
  by_contra hk
  rw [(alookup_eq_none_iff k l).mpr hk] at h
  exact Option.noConfusion h

/-- Looking up a key of a table built by tabulating a function over a key
list returns the function's value there. -/
theorem alookup_map_fun {β : Type} (f : CellKey → β) :
    ∀ (l : List CellKey) (k : CellKey), k ∈ l →
      alookup k (l.map fun k₀ => (k₀, f k₀)) = some (f k) := by
  intro l
  induction l with
  | nil => intro k hk; exact absurd hk (List.not_mem_nil k)
  | cons a t ih =>
    intro k hk
    by_cases h : a = k
    · subst h
      simp [alookup]
    · rcases List.mem_cons.mp hk with rfl | hk
      · exact absurd rfl h
      · simp only [List.map_cons, alookup, if_neg h]
        exact ih k hk

/-- Looking up a key outside the tabulated key list misses. -/
theorem alookup_map_fun_none {β : Type} (f : CellKey → β) (l : List CellKey)
    (k : CellKey) (hk : k ∉ l) : alookup k (l.map fun k₀ => (k₀, f k₀)) = none := by
  rw [alookup_eq_none_iff]
  simpa using hk

/-- Membership in `dedupAvoid`: the input's elements not in the seen set. -/
theorem mem_dedupAvoid (x : CellKey) :
    ∀ (l : List CellKey) (seen : List CellKey),
      x ∈ dedupAvoid seen l ↔ x ∈ l ∧ x ∉ seen := by
  intro l
  induction l with
  | nil => intro seen; simp [dedupAvoid]
  | cons k ks ih =>
    intro seen
    by_cases hk : k ∈ seen
    · rw [dedupAvoid, if_pos hk, ih]
      constructor
      · rintro ⟨h1, h2⟩
        exact ⟨List.mem_cons_of_mem _ h1, h2⟩
      · rintro ⟨h1, h2⟩
        rcases List.mem_cons.mp h1 with rfl | h1
        · exact absurd hk h2
        · exact ⟨h1, h2⟩
    · rw [dedupAvoid, if_neg hk]
      constructor
      · intro hx
        rcases List.mem_cons.mp hx with rfl | hx
        · exact ⟨List.mem_cons_self _ _, hk⟩
        · have hx2 := (ih _).mp hx
          refine ⟨List.mem_cons_of_mem _ hx2.1, fun hs => hx2.2 ?_⟩
          exact List.mem_append_left _ hs
      · rintro ⟨h1, h2⟩
        rcases List.mem_cons.mp h1 with rfl | h1
        · exact List.mem_cons_self _ _
        · by_cases hxk : x = k
          · subst hxk
            exact List.mem_cons_self _ _
          · refine List.mem_cons_of_mem _ ((ih _).mpr ⟨h1, fun hs => ?_⟩)
            rcases List.mem_append.mp hs with hs | hs
            · exact h2 hs
            · exact hxk (List.mem_singleton.mp hs)

/-- `dedupAvoid` produces a list without duplicates. -/
theorem nodup_dedupAvoid :
    ∀ (l : List CellKey) (seen : List CellKey), (dedupAvoid seen l).Nodup := by
  intro l
  induction l with
  | nil => intro seen; simp [dedupAvoid]
  | cons k ks ih =>
    intro seen
    by_cases hk : k ∈ seen
    · rw [dedupAvoid, if_pos hk]
      exact ih seen
    · rw [dedupAvoid, if_neg hk]
      refine List.nodup_cons.mpr ⟨fun hmem => ?_, ih _⟩
      exact ((mem_dedupAvoid k ks _).mp hmem).2 (List.mem_append_right _ (List.mem_singleton.mpr rfl))

/-- Claim C2: for every cell materialized in the grid, the overall score is
the arithmetic mean of its day and night scores, substituting 75 for a
missing day score and 60 for a missing night score; a cell in neither
bucket is never materialized in the overall map. -/
theorem claim_C2_overall_mean (cellToLatLon : CellKey → ℚ × ℚ)
    (day night : PeriodMap) (k : CellKey) :
    (∀ c, alookup k day = some c → alookup k night = none →
      (alookup k (calculate_overall_scores cellToLatLon day night)).map
        OverallScore.safety_score = some ((c.safety_score + 60) / 2)) ∧
    (∀ c, alookup k day = none → alookup k night = some c →
      (alookup k (calculate_overall_scores cellToLatLon day night)).map
        OverallScore.safety_score = some ((75 + c.safety_score) / 2)) ∧
    (∀ cd cn, alookup k day = some cd → alookup k night = some cn →
      (alookup k (calculate_overall_scores cellToLatLon day night)).map
        OverallScore.safety_score = some ((cd.safety_score + cn.safety_score) / 2)) ∧
    (alookup k day = none → alookup k night = none →
      alookup k (calculate_overall_scores cellToLatLon day night) = none) := by
  refine ⟨?_, ?_, ?_, ?_⟩
  · intro c hd hn
    have hk : k ∈ allH3Indices day night := by
      rw [allH3Indices, dedupFirst, mem_dedupAvoid]
      exact ⟨List.mem_append_left _ (alookup_mem_of_some hd), List.not_mem_nil k⟩
    rw [calculate_overall_scores, alookup_map_fun _ _ _ hk]
    simp [overallEntry, hd, hn]
  · intro c hd hn
    have hk : k ∈ allH3Indices day night := by
      rw [allH3Indices, dedupFirst, mem_dedupAvoid]
      exact ⟨List.mem_append_right _ (alookup_mem_of_some hn), List.not_mem_nil k⟩
    rw [calculate_overall_scores, alookup_map_fun _ _ _ hk]
    simp [overallEntry, hd, hn]
  · intro cd cn hd hn
    have hk : k ∈ allH3Indices day night := by
      rw [allH3Indices, dedupFirst, mem_dedupAvoid]
      exact ⟨List.mem_append_left _ (alookup_mem_of_some hd), List.not_mem_nil k⟩
    rw [calculate_overall_scores, alookup_map_fun _ _ _ hk]
    simp [overallEntry, hd, hn]
  · intro hd hn
    have hk : k ∉ allH3Indices day night := by
      rw [allH3Indices, dedupFirst, mem_dedupAvoid]
      rintro ⟨hmem, -⟩
      rcases List.mem_append.mp hmem with hmem | hmem
      · exact ((alookup_eq_none_iff k day).mp hd) hmem
      · exact ((alookup_eq_none_iff k night).mp hn) hmem
    rw [calculate_overall_scores, alookup_map_fun_none _ _ _ hk]

/-- Witness for C2: a cell present only in the day bucket with day score 80
gets overall score (80 + 60) / 2 = 70. -/
theorem claim_C2_overall_mean_witness :
    (alookup "a" (calculate_overall_scores (fun _ => (0, 0))
        [("a", ⟨80, 1, 2, 3, 5, 6⟩)] [])).map OverallScore.safety_score = some 70 := by
  have h := (claim_C2_overall_mean (fun _ => (0, 0))
    [("a", ⟨80, 1, 2, 3, 5, 6⟩)] [] "a").1 ⟨80, 1, 2, 3, 5, 6⟩ (by decide) rfl
  rw [h]
  norm_num

/-- Claim C3: on the built grid (buckets day, night, overall), a point
lookup returns the stored score for the point's cell when present under the
requested bucket, and otherwise the bucket default 75 / 60 / 67.5. -/
theorem claim_C3_point_lookup (gday gnight goverall : List (CellKey × ℚ))
    (cellOf : ℚ → ℚ → CellKey) (lat lon : ℚ) (s : ℚ) :
    ((alookup (cellOf lat lon) gday = some s →
      get_safety_score_for_location [("day", gday), ("night", gnight), ("overall", goverall)]
        cellOf lat lon "day" = s) ∧
     (alookup (cellOf lat lon) gday = none →
      get_safety_score_for_location [("day", gday), ("night", gnight), ("overall", goverall)]
        cellOf lat lon "day" = 75)) ∧
    ((alookup (cellOf lat lon) gnight = some s →
      get_safety_score_for_location [("day", gday), ("night", gnight), ("overall", goverall)]
        cellOf lat lon "night" = s) ∧
     (alookup (cellOf lat lon) gnight = none →
      get_safety_score_for_location [("day", gday), ("night", gnight), ("overall", goverall)]
        cellOf lat lon "night" = 60)) ∧
    ((alookup (cellOf lat lon) goverall = some s →
      get_safety_score_for_location [("day", gday), ("night", gnight), ("overall", goverall)]
        cellOf lat lon "overall" = s) ∧
     (alookup (cellOf lat lon) goverall = none →
      get_safety_score_for_location [("day", gday), ("night", gnight), ("overall", goverall)]
        cellOf lat lon "overall" = 67.5)) := by
  refine ⟨⟨?_, ?_⟩, ⟨?_, ?_⟩, ⟨?_, ?_⟩⟩ <;> intro h <;>
    simp [get_safety_score_for_location, cellScore, alookup, default_scores, h]

/-- Witness for C3: a stored day score is returned as stored. -/
theorem claim_C3_point_lookup_witness :
    get_safety_score_for_location [("day", [("cellA", 88)]), ("night", []), ("overall", [])]
      (fun _ _ => "cellA") 1 2 "day" = 88 :=
  ((claim_C3_point_lookup [("cellA", 88)] [] [] (fun _ _ => "cellA") 1 2 88).1).1 (by decide)

/-- Claim C10: for a bucket string other than day, night and overall that is
absent from the scores dict (as in every grid the system materializes),
point lookup falls back to 67.5 via the default-table lookup. -/
theorem claim_C10_unknown_bucket (scores : H3ScoresDict) (cellOf : ℚ → ℚ → CellKey)
    (lat lon : ℚ) (tp : String) (h1 : tp ≠ "day") (h2 : tp ≠ "night")
    (h3 : tp ≠ "overall") (h4 : alookup tp scores = none) :
    get_safety_score_for_location scores cellOf lat lon tp = 67.5 := by
  simp [get_safety_score_for_location, cellScore, h4, default_scores, alookup,
    Ne.symm h1, Ne.symm h2, Ne.symm h3]

/-- Witness for C10: the bucket string "unknown" yields 67.5 on the empty
built grid. -/
theorem claim_C10_unknown_bucket_witness :
    get_safety_score_for_location [("day", []), ("night", []), ("overall", [])]
      (fun _ _ => "k") 1 2 "unknown" = 67.5 :=
  claim_C10_unknown_bucket _ _ 1 2 "unknown" (by decide) (by decide) (by decide) (by decide)

/-- The route loop, run from any intermediate state, appends exactly the
not-yet-seen cells in first-occurrence order together with their per-cell
scores (the score fetched for a point depends only on the point's cell). -/
theorem collectRoute_eq (scores : H3ScoresDict) (cellOf : ℚ → ℚ → CellKey)
    (tp : String) :
    ∀ (ps : List (ℚ × ℚ)) (seen : List CellKey) (scs : List ℚ),
      collectRoute scores cellOf tp ps seen scs =
        (seen ++ dedupAvoid seen (ps.map fun p => cellOf p.1 p.2),
         scs ++ (dedupAvoid seen (ps.map fun p => cellOf p.1 p.2)).map
           (cellScore scores tp)) := by
  intro ps
  induction ps with
  | nil => intro seen scs; simp [collectRoute, dedupAvoid]
  | cons p rest ih =>
    intro seen scs
    by_cases h : cellOf p.1 p.2 ∈ seen
    · rw [collectRoute, if_pos h, ih]
      simp [dedupAvoid, h]
    · rw [collectRoute, if_neg h, ih]
      simp only [List.map_cons, dedupAvoid, if_neg h, get_safety_score_for_location,
        List.map_cons, List.append_assoc, List.singleton_append, Prod.mk.injEq]

/-- Running the route loop from the empty state yields the deduplicated
visited cells and their scores. -/
theorem collectRoute_run (scores : H3ScoresDict) (cellOf : ℚ → ℚ → CellKey)
    (tp : String) (route : List (ℚ × ℚ)) :
    collectRoute scores cellOf tp route [] [] =
      (visitedCells cellOf route, visitedScores scores cellOf tp route) := by
  rw [collectRoute_eq]
  simp [visitedCells, visitedScores, dedupFirst]

/-- A left fold by `min` is a lower bound of the seed and the list. -/
theorem foldl_min_le : ∀ (xs : List ℚ) (x y : ℚ), y ∈ x :: xs → xs.foldl min x ≤ y := by
  intro xs
  induction xs with
  | nil =>
    intro x y hy
    rw [List.mem_singleton.mp hy]
    exact le_refl _
  | cons z zs ih =>
    intro x y hy
    rcases List.mem_cons.mp hy with rfl | hy
    · exact le_trans (ih (min y z) _ (List.mem_cons_self _ _)) (min_le_left _ _)
    · rcases List.mem_cons.mp hy with rfl | hy
      · exact le_trans (ih (min x y) _ (List.mem_cons_self _ _)) (min_le_right _ _)
      · exact ih (min x z) y (List.mem_cons_of_mem _ hy)

/-- A left fold by `min` is attained by the seed or an element. -/
theorem foldl_min_mem : ∀ (xs : List ℚ) (x : ℚ), xs.foldl min x ∈ x :: xs := by
  intro xs
  induction xs with
  | nil => intro x; exact List.mem_singleton.mpr rfl
  | cons z zs ih =>
    intro x
    rcases List.mem_cons.mp (ih (min x z)) with h | h
    · rcases min_choice x z with hm | hm
      · exact List.mem_cons.mpr (Or.inl (h.trans hm))
      · exact List.mem_cons_of_mem _ (List.mem_cons.mpr (Or.inl (h.trans hm)))
    · exact List.mem_cons_of_mem _ (List.mem_cons_of_mem _ h)

/-- A left fold by `max` is an upper bound of the seed and the list. -/
theorem le_foldl_max : ∀ (xs : List ℚ) (x y : ℚ), y ∈ x :: xs → y ≤ xs.foldl max x := by
  intro xs
  induction xs with
  | nil =>
    intro x y hy
    rw [List.mem_singleton.mp hy]
    exact le_refl _
  | cons z zs ih =>
    intro x y hy
    rcases List.mem_cons.mp hy with rfl | hy
    · exact le_trans (le_max_left _ _) (ih (max y z) _ (List.mem_cons_self _ _))
    · rcases List.mem_cons.mp hy with rfl | hy
      · exact le_trans (le_max_right _ _) (ih (max x y) _ (List.mem_cons_self _ _))
      · exact ih (max x z) y (List.mem_cons_of_mem _ hy)

/-- A left fold by `max` is attained by the seed or an element. -/
theorem foldl_max_mem : ∀ (xs : List ℚ) (x : ℚ), xs.foldl max x ∈ x :: xs := by
  intro xs
  induction xs with
  | nil => intro x; exact List.mem_singleton.mpr rfl
  | cons z zs ih =>
    intro x
    rcases List.mem_cons.mp (ih (max x z)) with h | h
    · rcases max_choice x z with hm | hm
      · exact List.mem_cons.mpr (Or.inl (h.trans hm))
      · exact List.mem_cons_of_mem _ (List.mem_cons.mpr (Or.inl (h.trans hm)))
    · exact List.mem_cons_of_mem _ (List.mem_cons_of_mem _ h)

/-- Claim C5: scoring a route with an empty coordinate sequence returns
exactly the neutral breakdown {67.5, 67.5, 67.5, 0, 0}. -/
theorem claim_C5_empty_route (scores : H3ScoresDict) (cellOf : ℚ → ℚ → CellKey)
    (tp : String) :
    calculate_route_safety scores cellOf [] tp = ⟨67.5, 67.5, 67.5, 0, 0⟩ := rfl

/-- Claim C6: for every route yielding at least one scored cell, the
breakdown's overall is the arithmetic mean, min the minimum, max the
maximum, and variance the population variance (divide by n) of the
deduplicated per-cell scores, and h3_count is the number of distinct
cells visited. -/
theorem claim_C6_route_stats (scores : H3ScoresDict) (cellOf : ℚ → ℚ → CellKey)
    (tp : String) (route : List (ℚ × ℚ)) (hne : route ≠ []) :
    (calculate_route_safety scores cellOf route tp).overall_safety =
      (visitedScores scores cellOf tp route).sum /
        ((visitedScores scores cellOf tp route).length : ℚ) ∧
    ((calculate_route_safety scores cellOf route tp).min_safety ∈
        visitedScores scores cellOf tp route ∧
      ∀ s ∈ visitedScores scores cellOf tp route,
        (calculate_route_safety scores cellOf route tp).min_safety ≤ s) ∧
    ((calculate_route_safety scores cellOf route tp).max_safety ∈
        visitedScores scores cellOf tp route ∧
      ∀ s ∈ visitedScores scores cellOf tp route,
        s ≤ (calculate_route_safety scores cellOf route tp).max_safety) ∧
    (calculate_route_safety scores cellOf route tp).safety_variance =
      ((visitedScores scores cellOf tp route).map
        (fun v => (v - (visitedScores scores cellOf tp route).sum /
          ((visitedScores scores cellOf tp route).length : ℚ)) ^ 2)).sum /
        ((visitedScores scores cellOf tp route).length : ℚ) ∧
    (calculate_route_safety scores cellOf route tp).h3_count =
      (visitedCells cellOf route).length ∧
    (visitedCells cellOf route).Nodup ∧
    (∀ c, c ∈ visitedCells cellOf route ↔ c ∈ route.map fun p => cellOf p.1 p.2) := by
  obtain ⟨p, ps, rfl⟩ := List.exists_cons_of_ne_nil hne
  have hsc : visitedScores scores cellOf tp (p :: ps) =
      cellScore scores tp (cellOf p.1 p.2) ::
        (dedupAvoid [cellOf p.1 p.2] (ps.map fun r => cellOf r.1 r.2)).map
          (cellScore scores tp) := by
    simp [visitedScores, visitedCells, dedupFirst, dedupAvoid]
  have hbd : calculate_route_safety scores cellOf (p :: ps) tp =
      ⟨listMean (visitedScores scores cellOf tp (p :: ps)),
       listMin (visitedScores scores cellOf tp (p :: ps)),
       listMax (visitedScores scores cellOf tp (p :: ps)),
       listVar (visitedScores scores cellOf tp (p :: ps)),
       (visitedCells cellOf (p :: ps)).length⟩ := by
    rw [calculate_route_safety, collectRoute_run]
    rw [if_neg (by rw [hsc]; exact List.cons_ne_nil _ _)]
  refine ⟨?_, ⟨?_, ?_⟩, ⟨?_, ?_⟩, ?_, ?_, ?_, ?_⟩
  · rw [hbd]
    simp [listMean]
  · rw [hbd, hsc]
    exact foldl_min_mem _ _
  · intro s hs
    rw [hbd]
    rw [hsc] at hs ⊢
    exact foldl_min_le _ _ s hs
  · rw [hbd, hsc]
    exact foldl_max_mem _ _
  · intro s hs
    rw [hbd]
    rw [hsc] at hs ⊢
    exact le_foldl_max _ _ s hs
  · rw [hbd]
    simp [listVar, listMean]
  · rw [hbd]
  · exact nodup_dedupAvoid _ _
  · intro c
    rw [visitedCells, dedupFirst, mem_dedupAvoid]
    simp

/-- Witness for C6: a two-point route over two distinct cells has two
distinct visited cells. -/
theorem claim_C6_route_stats_witness :
    (calculate_route_safety [("day", [("a", 80), ("b", 60)])]
      (fun lat _ => if lat = 0 then "a" else "b") [(0, 0), (1, 1)] "day").h3_count = 2 := by
  have h := claim_C6_route_stats [("day", [("a", 80), ("b", 60)])]
    (fun lat _ => if lat = 0 then "a" else "b") "day" [(0, 0), (1, 1)]
    (List.cons_ne_nil _ _)
  rw [h.2.2.2.2.1]
  decide

/-- Claim C7: route scoring is invariant under consecutive repetition of a
coordinate; for points in distinct cells, scoring [p, p, q] equals scoring
[p, q]. -/
theorem claim_C7_duplicate_invariance (scores : H3ScoresDict)
    (cellOf : ℚ → ℚ → CellKey) (tp : String) (p q : ℚ × ℚ)
    (hpq : cellOf p.1 p.2 ≠ cellOf q.1 q.2) :
    calculate_route_safety scores cellOf [p, p, q] tp =
      calculate_route_safety scores cellOf [p, q] tp := by
  have h1 : visitedCells cellOf [p, p, q] = visitedCells cellOf [p, q] := by
    simp [visitedCells, dedupFirst, dedupAvoid, Ne.symm hpq]
  have h2 : visitedScores scores cellOf tp [p, p, q] =
      visitedScores scores cellOf tp [p, q] := by
    rw [visitedScores, visitedScores, h1]
  rw [calculate_route_safety, calculate_route_safety, collectRoute_run, collectRoute_run,
    h1, h2]

/-- Witness for C7: a concrete route with a consecutively repeated first
point scores identically to the route without the repetition. -/
theorem claim_C7_duplicate_invariance_witness :
    calculate_route_safety [("day", [("a", 80)])]
      (fun lat _ => if lat = 0 then "a" else "b") [(0, 0), (0, 0), (1, 1)] "day" =
    calculate_route_safety [("day", [("a", 80)])]
      (fun lat _ => if lat = 0 then "a" else "b") [(0, 0), (1, 1)] "day" :=
  claim_C7_duplicate_invariance _ _ "day" (0, 0) (1, 1) (by decide)

/-- Python's `max(r :: rs, key=key)` splits the list into a strict-smaller
prefix, the returned element, and a suffix, and bounds the whole list:
the maximum with ties broken by first occurrence. -/
theorem pyMax_decomp {α : Type} (key : α → ℚ) :
    ∀ (rs : List α) (r : α), ∃ l1 l2,
      r :: rs = l1 ++ pyMaxBy key r rs :: l2 ∧
      (∀ x ∈ l1, key x < key (pyMaxBy key r rs)) ∧
      (∀ x ∈ r :: rs, key x ≤ key (pyMaxBy key r rs)) := by
  intro rs
  induction rs with
  | nil =>
    intro r
    refine ⟨[], [], rfl, ?_, ?_⟩
    · intro x hx
      exact absurd hx (List.not_mem_nil x)
    · intro x hx
      rw [List.mem_singleton.mp hx]
      exact le_refl _
  | cons z zs ih =>
    intro r
    by_cases hz : key r < key z
    · have heq : pyMaxBy key r (z :: zs) = pyMaxBy key z zs := by
        rw [pyMaxBy, if_pos hz]
      obtain ⟨l1, l2, hdec, hlt, hle⟩ := ih z
      refine ⟨r :: l1, l2, ?_, ?_, ?_⟩
      · rw [heq, List.cons_append, ← hdec]
      · intro x hx
        rw [heq]
        rcases List.mem_cons.mp hx with rfl | hx
        · exact lt_of_lt_of_le hz (hle z (List.mem_cons_self _ _))
        · exact hlt x hx
      · intro x hx
        rw [heq]
        rcases List.mem_cons.mp hx with rfl | hx
        · exact le_of_lt (lt_of_lt_of_le hz (hle z (List.mem_cons_self _ _)))
        · exact hle x hx
    · have heq : pyMaxBy key r (z :: zs) = pyMaxBy key r zs := by
        rw [pyMaxBy, if_neg hz]
      obtain ⟨l1, l2, hdec, hlt, hle⟩ := ih r
      cases l1 with
      | nil =>
        rw [List.nil_append] at hdec
        injection hdec with h1 h2
        refine ⟨[], z :: zs, ?_, ?_, ?_⟩
        · rw [heq, List.nil_append, ← h1]
        · intro x hx
          exact absurd hx (List.not_mem_nil x)
        · intro x hx
          rw [heq, ← h1]
          rcases List.mem_cons.mp hx with rfl | hx
          · exact le_refl _
          · rcases List.mem_cons.mp hx with rfl | hx
            · exact not_lt.mp hz
            · have hx2 := hle x (List.mem_cons_of_mem _ hx)
              rwa [← h1] at hx2
      | cons a t =>
        rw [List.cons_append] at hdec
        injection hdec with h1 h2
        have hrM : key r < key (pyMaxBy key r zs) := by
          have := hlt a (List.mem_cons_self a t)
          rwa [← h1] at this
        refine ⟨r :: z :: t, l2, ?_, ?_, ?_⟩
        · rw [heq, List.cons_append, List.cons_append, ← h2]
        · intro x hx
          rw [heq]
          rcases List.mem_cons.mp hx with rfl | hx
          · exact hrM
          · rcases List.mem_cons.mp hx with rfl | hx
            · exact lt_of_le_of_lt (not_lt.mp hz) hrM
            · exact hlt x (List.mem_cons_of_mem _ hx)
        · intro x hx
          rw [heq]
          rcases List.mem_cons.mp hx with rfl | hx
          · exact hle x (List.mem_cons_self _ _)
          · rcases List.mem_cons.mp hx with rfl | hx
            · exact le_trans (not_lt.mp hz) (hle r (List.mem_cons_self _ _))
            · exact hle x (List.mem_cons_of_mem _ hx)

/-- Python's `min(r :: rs, key=key)` splits the list into a strict-greater
prefix, the returned element, and a suffix, and lower-bounds the whole
list: the minimum with ties broken by first occurrence. -/
theorem pyMin_decomp {α : Type} (key : α → ℚ) :
    ∀ (rs : List α) (r : α), ∃ l1 l2,
      r :: rs = l1 ++ pyMinBy key r rs :: l2 ∧
      (∀ x ∈ l1, key (pyMinBy key r rs) < key x) ∧
      (∀ x ∈ r :: rs, key (pyMinBy key r rs) ≤ key x) := by
  intro rs
  induction rs with
  | nil =>
    intro r
    refine ⟨[], [], rfl, ?_, ?_⟩
    · intro x hx
      exact absurd hx (List.not_mem_nil x)
    · intro x hx
      rw [List.mem_singleton.mp hx]
      exact le_refl _
  | cons z zs ih =>
    intro r
    by_cases hz : key z < key r
    · have heq : pyMinBy key r (z :: zs) = pyMinBy key z zs := by
        rw [pyMinBy, if_pos hz]
      obtain ⟨l1, l2, hdec, hlt, hle⟩ := ih z
      refine ⟨r :: l1, l2, ?_, ?_, ?_⟩
      · rw [heq, List.cons_append, ← hdec]
      · intro x hx
        rw [heq]
        rcases List.mem_cons.mp hx with rfl | hx
        · exact lt_of_le_of_lt (hle z (List.mem_cons_self _ _)) hz
        · exact hlt x hx
      · intro x hx
        rw [heq]
        rcases List.mem_cons.mp hx with rfl | hx
        · exact le_of_lt (lt_of_le_of_lt (hle z (List.mem_cons_self _ _)) hz)
        · exact hle x hx
    · have heq : pyMinBy key r (z :: zs) = pyMinBy key r zs := by
        rw [pyMinBy, if_neg hz]
      obtain ⟨l1, l2, hdec, hlt, hle⟩ := ih r
      cases l1 with
      | nil =>
        rw [List.nil_append] at hdec
        injection hdec with h1 h2
        refine ⟨[], z :: zs, ?_, ?_, ?_⟩
        · rw [heq, List.nil_append, ← h1]
        · intro x hx
          exact absurd hx (List.not_mem_nil x)
        · intro x hx
          rw [heq, ← h1]
          rcases List.mem_cons.mp hx with rfl | hx
          · exact le_refl _
          · rcases List.mem_cons.mp hx with rfl | hx
            · exact not_lt.mp hz
            · have hx2 := hle x (List.mem_cons_of_mem _ hx)
              rwa [← h1] at hx2
      | cons a t =>
        rw [List.cons_append] at hdec
        injection hdec with h1 h2
        have hrM : key (pyMinBy key r zs) < key r := by
          have := hlt a (List.mem_cons_self a t)
          rwa [← h1] at this
        refine ⟨r :: z :: t, l2, ?_, ?_, ?_⟩
        · rw [heq, List.cons_append, List.cons_append, ← h2]
        · intro x hx
          rw [heq]
          rcases List.mem_cons.mp hx with rfl | hx
          · exact hrM
          · rcases List.mem_cons.mp hx with rfl | hx
            · exact lt_of_lt_of_le hrM (not_lt.mp hz)
            · exact hlt x (List.mem_cons_of_mem _ hx)
        · intro x hx
          rw [heq]
          rcases List.mem_cons.mp hx with rfl | hx
          · exact hle x (List.mem_cons_self _ _)
          · rcases List.mem_cons.mp hx with rfl | hx
            · exact le_trans (hle r (List.mem_cons_self _ _)) (not_lt.mp hz)
            · exact hle x (List.mem_cons_of_mem _ hx)

/-- The position of an element after a prefix that does not contain it. -/
theorem pyIndex_append {α : Type} [DecidableEq α] (x : α) :
    ∀ (l1 l2 : List α), x ∉ l1 → pyIndex x (l1 ++ x :: l2) = l1.length := by
  intro l1
  induction l1 with
  | nil =>
    intro l2 h
    simp [pyIndex]
  | cons a t ih =>
    intro l2 h
    have ha : a ≠ x := by
      intro he
      exact h (by rw [he]; exact List.mem_cons_self x t)
    rw [List.cons_append, pyIndex, if_neg ha, ih l2 (fun hx => h (List.mem_cons_of_mem a hx))]
    rfl

/-- Counterexample to claim C4: in `[exampleRouteA, exampleRouteB]` the
safest route and the shortest route are both `exampleRouteB` (index 1),
yet the recommendation names index 0 — the hardcoded 0 of the equal-routes
branch — so the jointly best route is not the one recommended. -/
theorem claim_C4_counterexample :
    pyMaxBy SafetyRoute.safety_score exampleRouteA [exampleRouteB] = exampleRouteB ∧
    pyMinBy SafetyRoute.distance_km exampleRouteA [exampleRouteB] = exampleRouteB ∧
    pyIndex exampleRouteB [exampleRouteA, exampleRouteB] = 1 ∧
    exampleRouteA ≠ exampleRouteB ∧
    get_route_recommendation [exampleRouteA, exampleRouteB] =
      RouteRecommendation.recommended 0 "Best combination of safety and efficiency" := by
  refine ⟨?_, ?_, ?_, ?_, ?_⟩ <;> decide

/-- Claim C4 as amended: with S the first-occurrence maximum by
safety_score and D the first-occurrence minimum by distance_km of the
nonemtpy input list, the recommendation is index 0 (not necessarily S's
index) with reason "Best combination of safety and efficiency" when S = D;
S's index with reason "Prioritizing safety over shorter distance" when
S ≠ D and S.safety_score − D.safety_score > 15; D's index with reason
"Good balance of safety and efficiency" otherwise; and the empty list
yields the no-routes message. -/
theorem claim_C4_recommendation (r : SafetyRoute) (rs : List SafetyRoute) :
    (∃ l1 l2, r :: rs = l1 ++ pyMaxBy SafetyRoute.safety_score r rs :: l2 ∧
      (∀ x ∈ l1, x.safety_score < (pyMaxBy SafetyRoute.safety_score r rs).safety_score) ∧
      (∀ x ∈ r :: rs, x.safety_score ≤ (pyMaxBy SafetyRoute.safety_score r rs).safety_score) ∧
      pyIndex (pyMaxBy SafetyRoute.safety_score r rs) (r :: rs) = l1.length) ∧
    (∃ l1 l2, r :: rs = l1 ++ pyMinBy SafetyRoute.distance_km r rs :: l2 ∧
      (∀ x ∈ l1, (pyMinBy SafetyRoute.distance_km r rs).distance_km < x.distance_km) ∧
      (∀ x ∈ r :: rs, (pyMinBy SafetyRoute.distance_km r rs).distance_km ≤ x.distance_km) ∧
      pyIndex (pyMinBy SafetyRoute.distance_km r rs) (r :: rs) = l1.length) ∧
    get_route_recommendation (r :: rs) =
      (if pyMaxBy SafetyRoute.safety_score r rs = pyMinBy SafetyRoute.distance_km r rs then
        RouteRecommendation.recommended 0 "Best combination of safety and efficiency"
      else if (pyMaxBy SafetyRoute.safety_score r rs).safety_score -
          (pyMinBy SafetyRoute.distance_km r rs).safety_score > 15 then
        RouteRecommendation.recommended
          (pyIndex (pyMaxBy SafetyRoute.safety_score r rs) (r :: rs))
          "Prioritizing safety over shorter distance"
      else
        RouteRecommendation.recommended
          (pyIndex (pyMinBy SafetyRoute.distance_km r rs) (r :: rs))
          "Good balance of safety and efficiency") ∧
    get_route_recommendation [] = RouteRecommendation.noRoutes "No routes available" := by
  obtain ⟨l1, l2, hdec, hlt, hle⟩ := pyMax_decomp SafetyRoute.safety_score rs r
  obtain ⟨m1, m2, hdec2, hlt2, hle2⟩ := pyMin_decomp SafetyRoute.distance_km rs r
  have hidx : pyIndex (pyMaxBy SafetyRoute.safety_score r rs) (r :: rs) = l1.length := by
    rw [hdec]
    exact pyIndex_append _ l1 l2 (fun hx => lt_irrefl _ (hlt _ hx))
  have hidx2 : pyIndex (pyMinBy SafetyRoute.distance_km r rs) (r :: rs) = m1.length := by
    rw [hdec2]
    exact pyIndex_append _ m1 m2 (fun hx => lt_irrefl _ (hlt2 _ hx))
  exact ⟨⟨l1, l2, hdec, hlt, hle, hidx⟩, ⟨m1, m2, hdec2, hlt2, hle2, hidx2⟩, rfl, rfl⟩

/-- Counterexample to claim C9: with the route-geometry collaborator absent
(no API key) the processor of `src/map/route_processer.py` returns three
fabricated mock candidate routes, not an empty list; likewise on a failed
request with a key present. -/
theorem claim_C9_counterexample :
    get_routes_from_ors (fun _ _ => 1) none ⟨0, 0⟩ ⟨1, 1⟩ 2 OrsOutcome.failure ≠ [] ∧
    (get_routes_from_ors (fun _ _ => 1) none ⟨0, 0⟩ ⟨1, 1⟩ 2 OrsOutcome.failure).length = 3 ∧
    (get_routes_from_ors (fun _ _ => 1) (some "key") ⟨0, 0⟩ ⟨1, 1⟩ 2
      OrsOutcome.failure).length = 3 := by
  refine ⟨?_, ?_, ?_⟩ <;> decide

/-- Claim C9 as amended: when the collaborator is absent or the request
fails, `get_routes_from_ors` of `src/map/route_processer.py` falls back to
1 + alternatives internally generated mock candidate routes (never a
crash, never empty), while `RouteAPIClient.get_ors_routes` of
`src/Map_backend/map/route_processer.py` surfaces an absent key or a
failed fetch as an empty candidate list; ranking an empty list yields the
"No routes available" message. -/
theorem claim_C9_upstream_failure (dist : RoutePoint → RoutePoint → ℚ)
    (key : String) (start stop : RoutePoint) (alternatives : ℕ)
    (features : List RawRoute) (response : Option (List RawRoute)) :
    (get_routes_from_ors dist none start stop alternatives OrsOutcome.failure).length =
      alternatives + 1 ∧
    (get_routes_from_ors dist (some key) start stop alternatives OrsOutcome.failure).length =
      alternatives + 1 ∧
    get_routes_from_ors dist (some key) start stop alternatives
      (OrsOutcome.success features) = features ∧
    get_ors_routes none response = [] ∧
    get_ors_routes (some key) none = [] ∧
    get_route_recommendation [] = RouteRecommendation.noRoutes "No routes available" := by
  have hlen : (generate_mock_routes dist start stop alternatives).length =
      alternatives + 1 := by
    simp only [generate_mock_routes, List.length_cons, List.length_map, List.length_range]
  exact ⟨hlen, hlen, rfl, rfl, rfl, rfl⟩
